import Mathlib

/-!
# Verification of the chess GUI controller (`chess_stockfish.py`)

Shallow embedding of the state-changing logic of the single source file
`chess_stockfish.py`.  The program is UI glue around two external
components:

* the rules library `python-chess` (legal-move generation, position
  bookkeeping), modelled here as a `Rules` oracle: every position-dependent
  query is a function of the list of moves applied since the standard
  initial position (which is exactly how a `chess.Board` determines its
  position: start position plus its internal `move_stack`);
* the Stockfish engine process, whose answer to one `play` request is
  modelled as an `Except Unit (Option Move)` value passed to the handler
  (error = the request raised, `none` = no move returned).

Purely visual code (`draw_board`, canvas, status label) mutates nothing the
claims are about and is omitted.  The `self.after(50, ...)` calls schedule
a later `engine_move_if_needed` event; that event is modelled as its own
operation, so each GUI-thread handler is one state-transition function.
-/

namespace ChessStockfish

/-- python-chess piece-type constant `chess.PAWN`. -/
def PAWN : Nat := 1

/-- python-chess piece-type constant `chess.KNIGHT`. -/
def KNIGHT : Nat := 2

/-- python-chess piece-type constant `chess.BISHOP`. -/
def BISHOP : Nat := 3

/-- python-chess piece-type constant `chess.ROOK`. -/
def ROOK : Nat := 4

/-- python-chess piece-type constant `chess.QUEEN`. -/
def QUEEN : Nat := 5

/-- python-chess piece-type constant `chess.KING`. -/
def KING : Nat := 6

/-- python-chess colour constant `chess.WHITE` (`True`). -/
def WHITE : Bool := true

/-- python-chess colour constant `chess.BLACK` (`False`). -/
def BLACK : Bool := false

/-- `BOARD_SIZE = 480` (pixels), line 13 of the source. -/
def BOARD_SIZE : Int := 480

/-- `SQUARE_SIZE = BOARD_SIZE // 8`, line 14 of the source. -/
def SQUARE_SIZE : Int := BOARD_SIZE / 8

/-- A python-chess `Piece`: a piece type (1..6) and a colour. -/
structure Piece where
  piece_type : Nat
  color : Bool
deriving DecidableEq

/-- A python-chess `Move`: origin square, destination square (0..63, square
index = rank * 8 + file) and optional promotion piece type.  Equality of
moves compares all three fields, as in python-chess. -/
structure Move where
  from_square : Nat
  to_square : Nat
  promotion : Option Nat := none
deriving DecidableEq

/-- `chess.square_file(sq)`: file index 0..7. -/
def square_file (sq : Nat) : Nat := sq % 8

/-- `chess.square_rank(sq)`: rank index 0..7. -/
def square_rank (sq : Nat) : Nat := sq / 8

/-- `chess.square(file, rank) = rank * 8 + file`. -/
def square (file rank : Nat) : Nat := rank * 8 + file

/-- `sq_to_rc(square, flip)` from lines 37-42: map a square index to the
drawn (row, col), row 0 at the top (rank 8), mirrored when flipped. -/
def sq_to_rc (sq : Nat) (flip : Bool) : Nat × Nat :=
  let row := 7 - square_rank sq
  let col := square_file sq
  if flip then (7 - row, 7 - col) else (row, col)

/-- `rc_to_sq(row, col, flip)` from lines 45-50: map a drawn (row, col)
back to a square index. -/
def rc_to_sq (row col : Nat) (flip : Bool) : Nat :=
  let rc := if flip then (7 - row, 7 - col) else (row, col)
  let rank := 7 - rc.1
  let file := rc.2
  square file rank

/-- The `chess.Board` object, identified with its internal `move_stack`:
the moves applied since the standard initial position.  `⟨[]⟩` is the
standard initial arrangement (what `chess.Board()` / `board.reset()`
produce); every position-dependent query goes through a `Rules` oracle
applied to this stack. -/
structure Board where
  move_stack : List Move
deriving DecidableEq

/-- `board.push(move)`: applies a move, appending it to the stack. -/
def Board.push (b : Board) (m : Move) : Board := ⟨b.move_stack ++ [m]⟩

/-- `board.pop()`: un-applies the most recent move. -/
def Board.pop (b : Board) : Board := ⟨b.move_stack.dropLast⟩

/-- `board.reset()` / `chess.Board()`: the standard initial position with
an empty move stack. -/
def Board.reset : Board := ⟨[]⟩

/-- `board.peek()`: the most recently applied move (`none` on an empty
stack, where python-chess would raise). -/
def Board.peek (b : Board) : Option Move := b.move_stack.getLast?

/-- The external python-chess rules oracle (the spec's Rules Oracle).  Each
query is a pure function of the moves applied since the standard initial
position.  `legal_moves` is the generated legal-move list: python-chess
generates every pawn move to the back rank *only* in promotion-tagged form
(promotion = knight/bishop/rook/queen), never as a bare move, and the `in
board.legal_moves` test is membership in exactly this set. -/
structure Rules where
  piece_at : List Move → Nat → Option Piece
  turn : List Move → Bool
  legal_moves : List Move → List Move
  is_game_over : List Move → Bool

/-- The mutable fields of `ChessGUI` that the claims concern (lines 60-68):
the board, the orientation flag, the selection (`selected_sq`,
`legal_targets`), the GUI move history `move_stack` (pairs appended on
lines 271 and 299), the engine assignment `engine_side`, and whether an
engine handle exists (`self.engine is not None`).  The think-time float and
the status string are display/engine-tuning data no claim depends on. -/
structure GUIState where
  board : Board
  flip : Bool
  selected_sq : Option Nat
  legal_targets : List Nat
  move_stack : List (Move × Option Move)
  engine_side : Option Bool
  engine : Bool
deriving DecidableEq

/-- `ChessGUI.new_game` (lines 118-128), state-changing part: reset the
board, clear history and selection.  (The `after(50, engine_move_if_needed)`
scheduled when the engine is assigned White is a separate later event.) -/
def new_game (s : GUIState) : GUIState :=
  { s with board := Board.reset, move_stack := [],
           selected_sq := none, legal_targets := [] }

/-- `ChessGUI.undo_move` (lines 130-139): early return when the GUI history
is empty, otherwise pop one ply from the board and one entry from the
history and clear the selection. -/
def undo_move (s : GUIState) : GUIState :=
  if s.move_stack.length = 0 then s
  else
    { s with board := s.board.pop, move_stack := s.move_stack.dropLast,
             selected_sq := none, legal_targets := [] }

/-- `ChessGUI.flip_board` (lines 141-143). -/
def flip_board (s : GUIState) : GUIState := { s with flip := !s.flip }

/-- `ChessGUI.start_engine` (lines 97-107): keep an existing handle,
otherwise the launch attempt succeeds or fails (`launch_ok` abstracts the
outcome of `popen_uci`; on failure `self.engine` stays `None`). -/
def start_engine (s : GUIState) (launch_ok : Bool) : GUIState :=
  if s.engine then s else { s with engine := launch_ok }

/-- `ChessGUI.ask_play_engine` (lines 145-157), state-changing part:
answering yes to the play-as-White prompt assigns the engine Black,
otherwise White; then `start_engine`.  (Think-time entry and the scheduled
engine move are omitted / separate events.) -/
def ask_play_engine (s : GUIState) (play_as_white launch_ok : Bool) : GUIState :=
  let s1 := { s with engine_side := some (if play_as_white then BLACK else WHITE) }
  start_engine s1 launch_ok

/-- `ChessGUI.push_move` (lines 268-276): push the move on the board,
append `(move, board.peek())` to the GUI history, clear the selection.
`board.push` never raises for the moves this GUI constructs, so the
`except` branch is unreachable. -/
def push_move (s : GUIState) (m : Move) : GUIState :=
  let b := s.board.push m
  { s with board := b, move_stack := s.move_stack ++ [(m, b.peek)],
           selected_sq := none, legal_targets := [] }

/-- `ChessGUI.is_promotion_move` (lines 259-266). -/
def is_promotion_move (rules : Rules) (s : GUIState) (from_sq to_sq : Nat) : Bool :=
  match rules.piece_at s.board.move_stack from_sq with
  | none => false
  | some p =>
    if p.piece_type ≠ PAWN then false
    else
      let to_rank := square_rank to_sq
      (p.color == WHITE && to_rank == 7) || (p.color == BLACK && to_rank == 0)

/-- The list comprehension of lines 234 and 250:
`[m.to_square for m in self.board.legal_moves if m.from_square == sq]`. -/
def legal_targets_from (rules : Rules) (s : GUIState) (sq : Nat) : List Nat :=
  ((rules.legal_moves s.board.move_stack).filter
      (fun m => m.from_square == sq)).map (fun m => m.to_square)

/-- `ChessGUI.on_click` (lines 218-257), state-changing part.  `x, y` are the
pixel coordinates of the click; Python's floor division `//` is `Int.fdiv`.
The guard on line 226 (`engine_side is not None and board.turn ==
engine_side`) is exactly `engine_side = some turn`.  The move test on line
240 is membership of the *bare* move (no promotion field) in the oracle's
legal-move list. -/
def on_click (rules : Rules) (s : GUIState) (x y : Int) : GUIState :=
  let col := Int.fdiv x SQUARE_SIZE
  let row := Int.fdiv y SQUARE_SIZE
  if col < 0 ∨ col > 7 ∨ row < 0 ∨ row > 7 then s
  else
    let sq := rc_to_sq row.toNat col.toNat s.flip
    if s.engine_side = some (rules.turn s.board.move_stack) then s
    else
      let piece := rules.piece_at s.board.move_stack sq
      match s.selected_sq with
      | none =>
        match piece with
        | some p =>
          if p.color = rules.turn s.board.move_stack then
            { s with selected_sq := some sq,
                     legal_targets := legal_targets_from rules s sq }
          else s
        | none => s
      | some sel =>
        if Move.mk sel sq none ∈ rules.legal_moves s.board.move_stack then
          let mv := if is_promotion_move rules s sel sq then Move.mk sel sq (some QUEEN)
                    else Move.mk sel sq none
          push_move s mv
        else
          match piece with
          | some p =>
            if p.color = rules.turn s.board.move_stack then
              { s with selected_sq := some sq,
                       legal_targets := legal_targets_from rules s sq }
            else { s with selected_sq := none, legal_targets := [] }
          | none => { s with selected_sq := none, legal_targets := [] }

/-- `ChessGUI.engine_move_if_needed` together with its worker
`think_and_move` (lines 279-305).  `launch_ok` abstracts the outcome of a
fresh `popen_uci` attempt inside `start_engine`; `response` is the outcome
of the single `engine.play` request: `Except.error ()` when the request
raised, `Except.ok none` when the engine returned no move (`result is None
or result.move is None`), `Except.ok (some m)` when it returned move `m`,
which is then applied through `board.push` and the history gets `(m, None)`
appended (line 299). -/
def engine_move_if_needed (rules : Rules) (s : GUIState) (launch_ok : Bool)
    (response : Except Unit (Option Move)) : GUIState :=
  match s.engine_side with
  | none => s
  | some side =>
    if rules.is_game_over s.board.move_stack then s
    else if rules.turn s.board.move_stack ≠ side then s
    else
      let s1 := start_engine s launch_ok
      if !s1.engine then s1
      else
        match response with
        | Except.error _ => s1
        | Except.ok none => s1
        | Except.ok (some m) =>
          { s1 with board := s1.board.push m,
                    move_stack := s1.move_stack ++ [(m, none)] }

/-- A state with every field at its `ChessGUI.__init__` value (lines
60-68): fresh board, not flipped, nothing selected, empty history, no
engine assignment, no engine handle. -/
def base_state : GUIState where
  board := Board.reset
  flip := false
  selected_sq := none
  legal_targets := []
  move_stack := []
  engine_side := none
  engine := false

/-- A minimal concrete oracle used to instantiate universally quantified
theorems: an (unreachable-in-chess but type-correct) empty board with White
to move, no legal moves, game not over.  Only used in witnesses, whose
statements never depend on the oracle's chess accuracy. -/
def sample_rules : Rules where
  piece_at := fun _ _ => none
  turn := fun _ => WHITE
  legal_moves := fun _ => []
  is_game_over := fun _ => false

/-- Snapshot of the python-chess oracle in the legal position White Ke1
(square 4) and Pe7 (square 52), Black Kh5 (square 39), White to move.  The
legal moves are the five king steps d1, f1, d2, e2, f2 and the pawn
promotion e7-e8; python-chess generates the promotion only in its four
promotion-tagged forms `e7e8q`, `e7e8r`, `e7e8b`, `e7e8n` — the bare move
`Move(E7, E8)` (promotion `None`) is *not* a member of `legal_moves`
(`is_pseudo_legal` checks a pawn move by membership in the generated move
set, whose back-rank entries all carry a promotion piece).  The oracle is a
snapshot: its answers are those python-chess gives in this position,
independent of the move stack, since every query in the scenario below is
made at one fixed position. -/
def promo_rules : Rules where
  piece_at := fun _ sq =>
    if sq = 4 then some ⟨KING, WHITE⟩
    else if sq = 52 then some ⟨PAWN, WHITE⟩
    else if sq = 39 then some ⟨KING, BLACK⟩
    else none
  turn := fun _ => WHITE
  legal_moves := fun _ =>
    [⟨4, 3, none⟩, ⟨4, 5, none⟩, ⟨4, 11, none⟩, ⟨4, 12, none⟩, ⟨4, 13, none⟩,
     ⟨52, 60, some QUEEN⟩, ⟨52, 60, some ROOK⟩,
     ⟨52, 60, some BISHOP⟩, ⟨52, 60, some KNIGHT⟩]
  is_game_over := fun _ => false

/-- The state after the human clicks e7 (pixel (270, 90): column 4, row 1)
in the `promo_rules` position: the pawn on square 52 is selected. -/
def promo_selected_state : GUIState := on_click promo_rules base_state 270 90

/-- A fresh-game state in which the human has selected the e2 pawn
(square 12): empty history but a non-trivial selection, as after one click
on e2 at the start of a game. -/
def sel_state : GUIState :=
  { base_state with selected_sq := some 12, legal_targets := [20, 28] }

/-- A state whose history holds one applied move (e2-e4 style), with a
square selected. -/
def hist_state : GUIState :=
  { base_state with board := ⟨[⟨12, 28, none⟩]⟩,
                    move_stack := [(⟨12, 28, none⟩, some ⟨12, 28, none⟩)],
                    selected_sq := some 52 }

/-- A state in which the engine is assigned the side to move (White). -/
def engine_turn_state : GUIState := { base_state with engine_side := some WHITE }

/-- The GUI-history/board-plies invariant of the claims: the GUI history
length equals the number of moves applied to the board since the initial
position. -/
def history_invariant (s : GUIState) : Prop :=
  s.move_stack.length = s.board.move_stack.length

/-! ## Helper lemmas -/

theorem Board.pop_push (b : Board) (m : Move) : (b.push m).pop = b := by
  simp [Board.push, Board.pop, List.dropLast_concat]

theorem push_move_board (s : GUIState) (m : Move) :
    (push_move s m).board = s.board.push m := rfl

theorem push_move_move_stack (s : GUIState) (m : Move) :
    (push_move s m).move_stack = s.move_stack ++ [(m, (s.board.push m).peek)] := rfl

theorem undo_move_board (s : GUIState) :
    (undo_move s).board = if s.move_stack.length = 0 then s.board else s.board.pop := by
  unfold undo_move; split <;> simp_all

theorem undo_move_move_stack (s : GUIState) :
    (undo_move s).move_stack =
      if s.move_stack.length = 0 then s.move_stack else s.move_stack.dropLast := by
  unfold undo_move; split <;> simp_all

theorem start_engine_board (s : GUIState) (lk : Bool) :
    (start_engine s lk).board = s.board := by
  unfold start_engine; split <;> rfl

theorem start_engine_move_stack (s : GUIState) (lk : Bool) :
    (start_engine s lk).move_stack = s.move_stack := by
  unfold start_engine; split <;> rfl

theorem start_engine_engine_side (s : GUIState) (lk : Bool) :
    (start_engine s lk).engine_side = s.engine_side := by
  unfold start_engine; split <;> rfl

theorem undo_move_engine_side (s : GUIState) :
    (undo_move s).engine_side = s.engine_side := by
  unfold undo_move; split <;> rfl

theorem on_click_engine_side (rules : Rules) (s : GUIState) (x y : Int) :
    (on_click rules s x y).engine_side = s.engine_side := by
  simp only [on_click]
  repeat' split
  all_goals rfl

theorem engine_move_engine_side (rules : Rules) (s : GUIState) (lk : Bool)
    (resp : Except Unit (Option Move)) :
    (engine_move_if_needed rules s lk resp).engine_side = s.engine_side := by
  simp only [engine_move_if_needed]
  repeat' split
  all_goals simp [start_engine_engine_side]

/-- `on_click` either leaves the board and the history untouched, or applies
exactly one move through `push_move`. -/
theorem on_click_board_history (rules : Rules) (s : GUIState) (x y : Int) :
    ((on_click rules s x y).board = s.board ∧
      (on_click rules s x y).move_stack = s.move_stack) ∨
    ∃ m, on_click rules s x y = push_move s m := by
  simp only [on_click]
  repeat' split
  all_goals first
    | exact Or.inl ⟨rfl, rfl⟩
    | exact Or.inr ⟨_, rfl⟩

/-- `engine_move_if_needed` either leaves the board and the history
untouched, or pushes exactly the returned move and appends exactly one
history entry. -/
theorem engine_move_board_history (rules : Rules) (s : GUIState) (lk : Bool)
    (resp : Except Unit (Option Move)) :
    ((engine_move_if_needed rules s lk resp).board = s.board ∧
      (engine_move_if_needed rules s lk resp).move_stack = s.move_stack) ∨
    ∃ m, (engine_move_if_needed rules s lk resp).board = s.board.push m ∧
      (engine_move_if_needed rules s lk resp).move_stack = s.move_stack ++ [(m, none)] := by
  simp only [engine_move_if_needed]
  repeat' split
  all_goals first
    | exact Or.inl ⟨rfl, rfl⟩
    | exact Or.inl ⟨start_engine_board s lk, start_engine_move_stack s lk⟩
    | (rename_i m
       exact Or.inr ⟨m, by simp [start_engine_board], by simp [start_engine_move_stack]⟩)

/-! ## The claims -/

/-- Claim C4: `sq_to_rc` and `rc_to_sq` are exact inverses at each flip
state: square → (row, col) → square round-trips for every square 0..63, and
(row, col) → square → (row, col) round-trips for every coordinate in
0..7 × 0..7. -/
theorem sq_rc_roundtrip (flip : Bool) (sq r c : Nat)
    (hsq : sq < 64) (hr : r < 8) (hc : c < 8) :
    rc_to_sq (sq_to_rc sq flip).1 (sq_to_rc sq flip).2 flip = sq ∧
    sq_to_rc (rc_to_sq r c flip) flip = (r, c) := by
  have h1 : ∀ flip : Bool, ∀ sq < 64,
      rc_to_sq (sq_to_rc sq flip).1 (sq_to_rc sq flip).2 flip = sq := by decide
  have h2 : ∀ flip : Bool, ∀ r < 8, ∀ c < 8,
      sq_to_rc (rc_to_sq r c flip) flip = (r, c) := by decide
  exact ⟨h1 flip sq hsq, h2 flip r hr c hc⟩

/-- Witness for C4 at square e7 (52) and coordinate (3, 5), flipped. -/
theorem sq_rc_roundtrip_witness :
    rc_to_sq (sq_to_rc 52 true).1 (sq_to_rc 52 true).2 true = 52 ∧
    sq_to_rc (rc_to_sq 3 5 true) true = (3, 5) :=
  sq_rc_roundtrip true 52 3 5 (by decide) (by decide) (by decide)

/-- Claim C6: from any prior state, `new_game` resets the board to the
standard initial arrangement (the reset board, zero plies applied), empties
the history and clears the selection. -/
theorem new_game_resets (s : GUIState) :
    (new_game s).board = Board.reset ∧
    (new_game s).board.move_stack = [] ∧
    (new_game s).move_stack = [] ∧
    (new_game s).selected_sq = none ∧
    (new_game s).legal_targets = [] :=
  ⟨rfl, rfl, rfl, rfl, rfl⟩

/-- Claim C1 (refuted — code bug): in the `promo_rules` position the queen
promotion e7-e8 is a legal pawn move to the last rank and clicking e7 does
select the pawn with e8 among its targets, yet the second click on e8
applies no move at all: the handler's membership test on line 240 uses the
bare move `Move(e7, e8)`, which python-chess never lists as legal (all
generated back-rank pawn moves carry a promotion piece), so the
auto-promotion branch of lines 241-244 is unreachable and the click merely
clears the selection, returning the state to exactly what it was before the
pawn was picked up. -/
theorem promotion_click_bug :
    Move.mk 52 60 (some QUEEN) ∈ promo_rules.legal_moves base_state.board.move_stack ∧
    promo_selected_state.selected_sq = some 52 ∧
    60 ∈ promo_selected_state.legal_targets ∧
    on_click promo_rules promo_selected_state 270 30 = base_state := by decide

/-- Claim C2 counterexample: in a fresh game with the e2 pawn selected
(empty history), Undo returns early and leaves the selection in place, so
Undo does not, in every case, end in `NoSelection`. -/
theorem undo_empty_keeps_selection :
    sel_state.move_stack = [] ∧ ¬(undo_move sel_state).selected_sq = none := by decide

/-- Claim C2 as amended: Undo with empty history is a complete no-op — it
leaves the whole state (Position, History, side to move, and also the
Selection State) unchanged; Undo with non-empty history pops one ply from
the Position and one entry from the History and ends in `NoSelection`. -/
theorem undo_spec (s : GUIState) :
    (s.move_stack = [] → undo_move s = s) ∧
    (s.move_stack ≠ [] →
      (undo_move s).board = s.board.pop ∧
      (undo_move s).move_stack = s.move_stack.dropLast ∧
      (undo_move s).selected_sq = none ∧
      (undo_move s).legal_targets = []) := by
  constructor
  · intro h
    simp [undo_move, h]
  · intro h
    have hlen : ¬s.move_stack.length = 0 := by simpa using h
    simp [undo_move, hlen]

/-- Witness for C2: the no-op case at the fresh state, the popping case at
a one-move history. -/
theorem undo_spec_witness :
    undo_move base_state = base_state ∧ (undo_move hist_state).selected_sq = none :=
  ⟨(undo_spec base_state).1 rfl, ((undo_spec hist_state).2 (by decide)).2.2.1⟩

/-- Claim C3 counterexample: with the engine assigned White, `new_game`
leaves `engine_side` exactly as it was — the engine assignment still holds
its previous value after New Game (indeed `new_game` relies on this,
scheduling an engine move when the retained assignment is White). -/
theorem new_game_keeps_engine_side :
    (new_game engine_turn_state).engine_side = engine_turn_state.engine_side ∧
    engine_turn_state.engine_side ≠ none := by decide

/-- Claim C3 as amended: the engine assignment is changed only by the
explicit Play-vs-Engine action, which sets it to the side opposite the
human's choice; every other operation — New Game included — leaves it
unchanged, so it persists across new games. -/
theorem engine_side_only_set_by_ask (rules : Rules) (s : GUIState) (m : Move)
    (x y : Int) (lk pw : Bool) (resp : Except Unit (Option Move)) :
    (new_game s).engine_side = s.engine_side ∧
    (undo_move s).engine_side = s.engine_side ∧
    (flip_board s).engine_side = s.engine_side ∧
    (push_move s m).engine_side = s.engine_side ∧
    (on_click rules s x y).engine_side = s.engine_side ∧
    (engine_move_if_needed rules s lk resp).engine_side = s.engine_side ∧
    (ask_play_engine s pw lk).engine_side = some (if pw then BLACK else WHITE) := by
  refine ⟨rfl, undo_move_engine_side s, rfl, rfl, on_click_engine_side rules s x y,
          engine_move_engine_side rules s lk resp, ?_⟩
  simp [ask_play_engine, start_engine_engine_side]

/-- Claim C5: applying any sequence of moves through the move-application
path (`push_move`) and then invoking Undo once per move restores the
Position and the History exactly to their pre-sequence values. -/
theorem moves_then_undos_restore (s : GUIState) (ms : List Move) :
    (undo_move^[ms.length] (ms.foldl push_move s)).board = s.board ∧
    (undo_move^[ms.length] (ms.foldl push_move s)).move_stack = s.move_stack := by
  induction ms generalizing s with
  | nil => simp
  | cons m ms ih =>
    obtain ⟨hb, hm⟩ := ih (push_move s m)
    rw [List.foldl_cons, List.length_cons, Function.iterate_succ_apply',
        undo_move_board, undo_move_move_stack, hb, hm]
    simp [push_move, Board.push, Board.pop, List.dropLast_concat]

/-- Claim C7: whenever the engine assignment equals the side to move, a
board click at any pixel coordinate is ignored: the whole state — Position,
History, Selection State included — is unchanged. -/
theorem engine_turn_click_ignored (rules : Rules) (s : GUIState) (x y : Int)
    (h : s.engine_side = some (rules.turn s.board.move_stack)) :
    on_click rules s x y = s := by
  simp [on_click, h]

/-- Witness for C7: engine assigned White, White to move, click inside the
board. -/
theorem engine_turn_click_ignored_witness :
    on_click sample_rules engine_turn_state 90 90 = engine_turn_state :=
  engine_turn_click_ignored sample_rules engine_turn_state 90 90 rfl

/-- Claim C8: when the engine request raises, or the engine returns no
move, the request leaves Position and History unchanged. -/
theorem engine_failure_no_mutation (rules : Rules) (s : GUIState) (lk : Bool)
    (resp : Except Unit (Option Move))
    (h : resp = Except.error () ∨ resp = Except.ok none) :
    (engine_move_if_needed rules s lk resp).board = s.board ∧
    (engine_move_if_needed rules s lk resp).move_stack = s.move_stack := by
  rcases h with h | h <;> subst h <;>
    · simp only [engine_move_if_needed]
      repeat' split
      all_goals first
        | exact ⟨rfl, rfl⟩
        | exact ⟨start_engine_board s lk, start_engine_move_stack s lk⟩

/-- Witness for C8: engine on move, engine started, no move returned. -/
theorem engine_failure_no_mutation_witness :
    (engine_move_if_needed sample_rules engine_turn_state true
        (Except.ok none)).board = engine_turn_state.board ∧
    (engine_move_if_needed sample_rules engine_turn_state true
        (Except.ok none)).move_stack = engine_turn_state.move_stack :=
  engine_failure_no_mutation sample_rules engine_turn_state true
    (Except.ok none) (Or.inr rfl)

/-- Claim C9 counterexample: in the `promo_rules` position with the e7 pawn
selected, clicking the empty square d4 (27) — which holds no piece of the
side to move and is not a legal destination of the selected pawn — changes
the Selection State: the selection is cleared rather than left unchanged. -/
theorem click_elsewhere_clears_selection :
    promo_selected_state.selected_sq = some 52 ∧
    promo_rules.piece_at promo_selected_state.board.move_stack 27 = none ∧
    Move.mk 52 27 none ∉ promo_rules.legal_moves promo_selected_state.board.move_stack ∧
    (on_click promo_rules promo_selected_state 200 250).selected_sq ≠
      promo_selected_state.selected_sq := by decide

/-- Claim C9 as amended: for a click that lands on the board during the
human's turn, on a square holding no piece of the side to move: when
nothing is selected the whole state is unchanged, and when a piece is
selected and the clicked square is not a legal (bare-move) destination of
it, the selection is cleared to `NoSelection` (no selected square, empty
target set). -/
theorem non_own_click_selection (rules : Rules) (s : GUIState) (x y : Int) (sq : Nat)
    (hin : ¬(Int.fdiv x SQUARE_SIZE < 0 ∨ Int.fdiv x SQUARE_SIZE > 7 ∨
             Int.fdiv y SQUARE_SIZE < 0 ∨ Int.fdiv y SQUARE_SIZE > 7))
    (hsq : sq = rc_to_sq (Int.fdiv y SQUARE_SIZE).toNat (Int.fdiv x SQUARE_SIZE).toNat s.flip)
    (hhuman : ¬s.engine_side = some (rules.turn s.board.move_stack))
    (hnotown : ∀ p, rules.piece_at s.board.move_stack sq = some p →
      ¬p.color = rules.turn s.board.move_stack) :
    (s.selected_sq = none → on_click rules s x y = s) ∧
    (∀ sel, s.selected_sq = some sel →
      Move.mk sel sq none ∉ rules.legal_moves s.board.move_stack →
      (on_click rules s x y).selected_sq = none ∧
      (on_click rules s x y).legal_targets = []) := by
  subst hsq
  simp only [on_click]
  rw [if_neg hin, if_neg hhuman]
  constructor
  · intro hnone
    rw [hnone]
    cases hp : rules.piece_at s.board.move_stack
        (rc_to_sq (Int.fdiv y SQUARE_SIZE).toNat (Int.fdiv x SQUARE_SIZE).toNat s.flip) with
    | none => rfl
    | some p =>
      dsimp only
      rw [if_neg (hnotown p hp)]
  · intro sel hsel hmem
    rw [hsel]
    dsimp only
    rw [if_neg hmem]
    cases hp : rules.piece_at s.board.move_stack
        (rc_to_sq (Int.fdiv y SQUARE_SIZE).toNat (Int.fdiv x SQUARE_SIZE).toNat s.flip) with
    | none => exact ⟨rfl, rfl⟩
    | some p =>
      dsimp only
      rw [if_neg (hnotown p hp)]
      exact ⟨rfl, rfl⟩

/-- Witness for C9 as amended: no-selection case at the fresh state
(clicking a8, which is empty under `sample_rules`); selected case in the
`promo_rules` position, clicking empty d4 with the e7 pawn selected. -/
theorem non_own_click_selection_witness :
    on_click sample_rules base_state 0 0 = base_state ∧
    (on_click promo_rules promo_selected_state 200 250).selected_sq = none := by
  constructor
  · exact (non_own_click_selection sample_rules base_state 0 0
      (rc_to_sq 0 0 false) (by decide) (by decide) (by decide)
      (fun p hp => by exact Option.noConfusion hp)).1 rfl
  · exact ((non_own_click_selection promo_rules promo_selected_state 200 250 27
      (by decide) (by decide) (by decide)
      (fun p hp => by exact Option.noConfusion hp)).2 52 (by decide) (by decide)).1

/-- `push_move` preserves the history/plies invariant. -/
theorem history_invariant_push (s : GUIState) (m : Move)
    (h : history_invariant s) : history_invariant (push_move s m) := by
  simp only [history_invariant] at h ⊢
  simp [push_move, Board.push, h]

/-- Claim C10: the length of the GUI history always equals the number of
plies applied to the board — the invariant is preserved by every operation,
a successful move application (human or engine) adds exactly one entry and
one ply, Undo on a non-empty history removes exactly one entry and one ply,
and New Game resets both to empty. -/
theorem history_matches_plies (rules : Rules) (s : GUIState) (m : Move)
    (x y : Int) (lk pw : Bool) (resp : Except Unit (Option Move))
    (h : history_invariant s) :
    history_invariant (push_move s m) ∧
    history_invariant (undo_move s) ∧
    history_invariant (new_game s) ∧
    history_invariant (engine_move_if_needed rules s lk resp) ∧
    history_invariant (on_click rules s x y) ∧
    history_invariant (flip_board s) ∧
    history_invariant (ask_play_engine s pw lk) ∧
    (push_move s m).move_stack.length = s.move_stack.length + 1 ∧
    (push_move s m).board.move_stack.length = s.board.move_stack.length + 1 ∧
    (s.move_stack ≠ [] →
      (undo_move s).move_stack.length + 1 = s.move_stack.length ∧
      (undo_move s).board.move_stack.length + 1 = s.board.move_stack.length) ∧
    (new_game s).move_stack = [] ∧ (new_game s).board.move_stack = [] := by
  have h' : s.move_stack.length = s.board.move_stack.length := h
  refine ⟨history_invariant_push s m h, ?_, rfl, ?_, ?_, h, ?_, ?_, ?_, ?_, rfl, rfl⟩
  · simp only [history_invariant, undo_move_board, undo_move_move_stack]
    by_cases hc : s.move_stack.length = 0
    · simp only [if_pos hc]; exact h'
    · simp only [if_neg hc, Board.pop, List.length_dropLast]; omega
  · rcases engine_move_board_history rules s lk resp with ⟨h1, h2⟩ | ⟨m', h1, h2⟩
    · simp only [history_invariant, h1, h2]; exact h'
    · simp only [history_invariant, h1, h2, Board.push]
      simp only [List.length_append, List.length_cons, List.length_nil]
      omega
  · rcases on_click_board_history rules s x y with ⟨h1, h2⟩ | ⟨m', hm⟩
    · simp only [history_invariant, h1, h2]; exact h'
    · rw [hm]; exact history_invariant_push s m' h
  · simp only [history_invariant]
    have h1 : (ask_play_engine s pw lk).board = s.board := by
      simp [ask_play_engine, start_engine_board]
    have h2 : (ask_play_engine s pw lk).move_stack = s.move_stack := by
      simp [ask_play_engine, start_engine_move_stack]
    rw [h1, h2]; exact h'
  · simp [push_move]
  · simp [push_move, Board.push]
  · intro hne
    have hlen : ¬s.move_stack.length = 0 := by simpa using hne
    have hb : s.board.move_stack.length ≠ 0 := by
      simp only [history_invariant] at h; omega
    simp only [undo_move_board, undo_move_move_stack, if_neg hlen, Board.pop,
      List.length_dropLast]
    omega

/-- Witness for C10: the invariant holds at the fresh state and is
preserved by a first human move and by an Undo there. -/
theorem history_matches_plies_witness :
    history_invariant (push_move base_state (Move.mk 12 28 none)) ∧
    history_invariant (undo_move base_state) :=
  ⟨(history_matches_plies sample_rules base_state (Move.mk 12 28 none) 0 0
      true true (Except.ok none) rfl).1,
   (history_matches_plies sample_rules base_state (Move.mk 12 28 none) 0 0
      true true (Except.ok none) rfl).2.1⟩

end ChessStockfish
